import Mathlib

/-!
Verification of the Vulkan D bindings generator (`vkdgen.py`).

The generator consumes parsed registry entities and accumulates formatted D
declaration lines in a sectioned buffer, flushing the sections in a fixed
order at the end of the run.  Python strings are embedded as `List Char`;
the two `re` patterns used by the type rewriter are embedded as executable
matching functions with Python's greedy-group semantics; fallible code paths
(the reference to the undefined Python name `convertTypeConst`, the failed
`re.match` attribute access, the negative-indent assertion) are embedded
with `Except`/`Option`.
-/

namespace Vkd

/-- Shorthand: a Lean string literal as the `List Char` the embedding works on. -/
def tl (s : String) : List Char := s.toList

/-- Python's `\s` / `str.strip` whitespace test, restricted to the ASCII range
(space, tab, newline, carriage return, vertical tab, form feed). -/
def isPySpace (c : Char) : Bool :=
  c = (' ') || c = ('\t') || c = ('\n') || c = ('\r') || c = ('\x0b') || c = ('\x0c')

/-- Python `str.rstrip()`: drop trailing whitespace. -/
def rstrip (l : List Char) : List Char :=
  (l.reverse.dropWhile isPySpace).reverse

/-- Python `str.strip()`: drop leading and trailing whitespace. -/
def pyStrip (l : List Char) : List Char :=
  rstrip (l.dropWhile isPySpace)

/-- Python `str.endswith(suf)`. -/
def listEndsWith (l suf : List Char) : Bool :=
  decide (l.drop (l.length - suf.length) = suf)

/-- Python `s.replace(pat, rep)`, fuelled so that it reduces by kernel
computation: when `pat` is a non-empty prefix, replacement drops at least one
character, so any fuel at least `s.length` is sufficient. -/
def pyReplaceF : Nat → List Char → List Char → List Char → List Char
  | 0, s, _, _ => s
  | _ + 1, [], _, _ => []
  | f + 1, c :: rest, pat, rep =>
    if pat ≠ [] ∧ pat.isPrefixOf (c :: rest) = true then
      rep ++ pyReplaceF f ((c :: rest).drop pat.length) pat rep
    else
      c :: pyReplaceF f rest pat rep

/-- Python `s.replace(pat, rep)`: replace every non-overlapping occurrence of
`pat`, scanning left to right.  (All call sites pass a non-empty `pat`;
for `pat = []` this returns `s`, whereas Python would interleave `rep`.) -/
def pyReplace (s pat rep : List Char) : List Char :=
  pyReplaceF s.length s pat rep

/-- Python `str.splitlines()` for newline-separated text (the XML parser has
already normalized line endings to `\n`). -/
def splitlines : List Char → List (List Char)
  | [] => []
  | c :: cs =>
    if c = ('\n') then [] :: splitlines cs
    else
      match splitlines cs with
      | [] => [[c]]
      | l :: ls => (c :: l) :: ls

/-- Python `str.split()` with no separator: split on whitespace runs,
producing no empty fragments. -/
def pySplitWs : List Char → List (List Char)
  | [] => []
  | c :: cs =>
    if isPySpace c then pySplitWs cs
    else
      match cs with
      | [] => [[c]]
      | c2 :: _ =>
        if isPySpace c2 then [c] :: pySplitWs cs
        else
          match pySplitWs cs with
          | [] => [[c]]
          | l :: ls => (c :: l) :: ls

/-- Bool test for `pat` occurring as a contiguous run inside `s`
(Python `pat in s`). -/
def hasInfix (s pat : List Char) : Bool :=
  match s with
  | [] => pat.isEmpty
  | _ :: rest => pat.isPrefixOf s || hasInfix rest pat

/-- Right-pad a token with spaces to width `w` (the spec's alignment rule). -/
def padTo (w : Nat) (l : List Char) : List Char :=
  l ++ List.replicate (w - l.length) (' ')

/-! ## The type-expression rewriter (`convertDTypeConst`, vkdgen.py lines 105-122)

The two compiled patterns are
`re_single_const = ^const\s+(.+)\*\s*$` and
`re_double_const = ^const\s+(.+)\*\s+const\*\s*$`.
Their `re.match` behaviour is embedded as deterministic functions.  The
determinism argument: `\s*$` (resp. `\s+const\*\s*$`) can only match at the
end of the string, and since `*` is not whitespace there is exactly one
position for each starred token whose suffix consists of whitespace only, so
the greedy group `(.+)` is forced — except when the group would have to
reach into the leading whitespace run (`p = k` below), where backtracking
shrinks `\s+` by exactly one character. `(.+)` cannot contain a newline. -/

/-- Extract the greedy group `(.+)` given the text `t` after `const`, the
length `k` of its leading-whitespace run (`k ≥ 1`), and the prefix `u` of `t`
that ends with the `*` terminating the group. -/
def groupFromStar (t : List Char) (k : Nat) (u : List Char) : Option (List Char) :=
  match u.getLast? with
  | some c =>
    if c = ('*') then
      let p := u.length - 1
      if k + 1 ≤ p then
        let mid := (t.drop k).take (p - k)
        if mid.contains ('\n') then none else some mid
      else if p = k ∧ 2 ≤ k then
        match t.get? (k - 1) with
        | some ch => if ch = ('\n') then none else some [ch]
        | none => none
      else none
    else none
  | none => none

/-- `re.match(re_single_const, s)`: the group of `^const\s+(.+)\*\s*$`. -/
def matchSingleConst (s : List Char) : Option (List Char) :=
  match s with
  | 'c' :: 'o' :: 'n' :: 's' :: 't' :: t =>
    let k := (t.takeWhile isPySpace).length
    if k = 0 then none else groupFromStar t k (rstrip t)
  | _ => none

/-- `re.match(re_double_const, s)`: the group of `^const\s+(.+)\*\s+const\*\s*$`. -/
def matchDoubleConst (s : List Char) : Option (List Char) :=
  match s with
  | 'c' :: 'o' :: 'n' :: 's' :: 't' :: t =>
    let k := (t.takeWhile isPySpace).length
    if k = 0 then none
    else
      let u := rstrip t
      if 6 ≤ u.length ∧ u.drop (u.length - 6) = tl ("const*") then
        let v := u.take (u.length - 6)
        let w := rstrip v
        if w.length = v.length then none else groupFromStar t k w
      else none
  | _ => none

/-- `convertDTypeConst` (vkdgen.py lines 111-122): C const syntax to D const
syntax, trying the double-indirection pattern first. -/
def convertDTypeConst (typ : List Char) : List Char :=
  match matchDoubleConst typ with
  | some g => tl ("const(") ++ g ++ tl ("*)*")
  | none =>
    match matchSingleConst typ with
    | some g => tl ("const(") ++ g ++ tl (")*")
    | none => typ

/-! ## `makeDParamType` (vkdgen.py lines 124-134)

A `<param>`/`<member>` element intermixes free text with `<type>`/`<name>`
sub-elements; the type string is reassembled from the text fragments,
skipping the `<name>` element's own text. -/

/-- An XML child element as seen by `makeDParamType`: its tag, its text and
its tail text (either may be absent). -/
structure XmlNode where
  tag : List Char
  text : Option (List Char)
  tail : Option (List Char)
deriving DecidableEq

/-- The parts of a `<param>` element consumed by `makeDParamType`. -/
structure XmlParam where
  text : Option (List Char)
  children : List XmlNode
deriving DecidableEq

/-- `noneStr` from the registry generator library: `None` becomes `""`. -/
def noneStr (o : Option (List Char)) : List Char := o.getD []

/-- `makePart` inside `makeDParamType`: strip the `struct ` tag keyword,
trim whitespace, and re-space `const`. -/
def makePart (part : Option (List Char)) : List Char :=
  pyReplace (pyStrip (pyReplace (noneStr part) (tl ("struct ")) [])) (tl ("const")) (tl ("const "))

/-- `makeDParamType` (vkdgen.py lines 124-134). -/
def makeDParamType (p : XmlParam) : List Char :=
  let typeStr :=
    p.children.foldl
      (fun acc elem =>
        (if elem.tag ≠ tl ("name") then acc ++ makePart elem.text else acc) ++ makePart elem.tail)
      (makePart p.text)
  convertDTypeConst (pyReplace typeStr (tl ("const *")) (tl ("const*")))

/-! ## The section buffer (`Sect`, `SourceFile`, vkdgen.py lines 17-100) -/

/-- The fixed, closed set of output sections, in declaration order. -/
inductive Sect where
  | GLOBAL_DEF
  | BASETYPE
  | CONST
  | HANDLE
  | FUNCPTR
  | ENUM
  | STRUCT
  | CMD
deriving DecidableEq

/-- One section of a `SourceFile`: its accumulated lines and its current
indentation depth. -/
structure SFSection where
  lines : List (List Char)
  indent : Nat
deriving DecidableEq

/-- The per-section state of a `SourceFile`, one field per `Sect` member. -/
structure SFSections where
  sGlobalDef : SFSection
  sBasetype : SFSection
  sConst : SFSection
  sHandle : SFSection
  sFuncptr : SFSection
  sEnum : SFSection
  sStruct : SFSection
  sCmd : SFSection
deriving DecidableEq

/-- Look up the section record for a `Sect` tag. -/
def getSec (m : SFSections) : Sect → SFSection
  | Sect.GLOBAL_DEF => m.sGlobalDef
  | Sect.BASETYPE => m.sBasetype
  | Sect.CONST => m.sConst
  | Sect.HANDLE => m.sHandle
  | Sect.FUNCPTR => m.sFuncptr
  | Sect.ENUM => m.sEnum
  | Sect.STRUCT => m.sStruct
  | Sect.CMD => m.sCmd

/-- Replace the section record for a `Sect` tag. -/
def setSec (m : SFSections) : Sect → SFSection → SFSections
  | Sect.GLOBAL_DEF, v => { m with sGlobalDef := v }
  | Sect.BASETYPE, v => { m with sBasetype := v }
  | Sect.CONST, v => { m with sConst := v }
  | Sect.HANDLE, v => { m with sHandle := v }
  | Sect.FUNCPTR, v => { m with sFuncptr := v }
  | Sect.ENUM, v => { m with sEnum := v }
  | Sect.STRUCT, v => { m with sStruct := v }
  | Sect.CMD, v => { m with sCmd := v }

/-- A `SourceFile`: all sections plus the currently active section tag. -/
structure SFState where
  sections : SFSections
  sect : Sect
deriving DecidableEq

/-- `SourceFile._one_indent_level = '    '`. -/
def oneIndentLevel : List Char := tl ("    ")

/-- `'    ' * indent`: the indentation prefix for depth `n`. -/
def indentChars (n : Nat) : List Char := (List.replicate n oneIndentLevel).flatten

/-- A fresh `SourceFile`: every section empty at depth 0, `GLOBAL_DEF` active. -/
def sfInit : SFState :=
  { sections :=
      { sGlobalDef := ⟨[], 0⟩, sBasetype := ⟨[], 0⟩, sConst := ⟨[], 0⟩, sHandle := ⟨[], 0⟩,
        sFuncptr := ⟨[], 0⟩, sEnum := ⟨[], 0⟩, sStruct := ⟨[], 0⟩, sCmd := ⟨[], 0⟩ },
    sect := Sect.GLOBAL_DEF }

/-- The operations a run performs against the buffer: switch the active
section, append a (formatted) line, indent, unindent. -/
inductive SFOp where
  | setSect (s : Sect)
  | putLine (l : List Char)
  | indentOp
  | unindentOp
deriving DecidableEq

/-- One buffer operation.  `putLine` stores the line prefixed by the active
section's current indentation (`SourceFile.__call__`); `unindentOp` at depth 0
trips the `assert self._section.indent > 0` and is modelled as failure. -/
def SFStep (st : SFState) : SFOp → Option SFState
  | SFOp.setSect s => some { st with sect := s }
  | SFOp.putLine l =>
    let sec := getSec st.sections st.sect
    let sec2 : SFSection := { sec with lines := sec.lines ++ [indentChars sec.indent ++ l] }
    some { st with sections := setSec st.sections st.sect sec2 }
  | SFOp.indentOp =>
    let sec := getSec st.sections st.sect
    some { st with sections := setSec st.sections st.sect { sec with indent := sec.indent + 1 } }
  | SFOp.unindentOp =>
    let sec := getSec st.sections st.sect
    if sec.indent = 0 then none
    else some { st with sections := setSec st.sections st.sect { sec with indent := sec.indent - 1 } }

/-- Run a list of buffer operations from a state. -/
def runOps : List SFOp → SFState → Option SFState
  | [], st => some st
  | op :: ops, st => (SFStep st op).bind (runOps ops)

/-- The declaration order of `Sect`, which is the iteration order of
`for sect in Sect` in `writeOut`. -/
def sectOrder : List Sect :=
  [Sect.GLOBAL_DEF, Sect.BASETYPE, Sect.CONST, Sect.HANDLE, Sect.FUNCPTR, Sect.ENUM,
   Sect.STRUCT, Sect.CMD]

/-- `SourceFile.writeOut` (vkdgen.py lines 97-100): the printed lines — every
section in declaration order, each stored line printed right-stripped. -/
def writeOutLines (st : SFState) : List (List Char) :=
  (sectOrder.map (fun s => ((getSec st.sections s).lines).map rstrip)).flatten

/-! ## The generation driver's command state (`DGenerator`, vkdgen.py lines 142-181, 361-380) -/

/-- `DGenerator.Param`: a command parameter's rewritten type and its name. -/
structure Param where
  typeStr : List Char
  name : List Char
deriving DecidableEq

/-- `DGenerator.Command`. -/
structure Command where
  returnType : List Char
  name : List Char
  params : List Param
deriving DecidableEq

/-- `DGenerator.globalCmdNames`: the global allow-list. -/
def globalCmdNames : List (List Char) :=
  [tl ("vkGetInstanceProcAddr"), tl ("vkEnumerateInstanceExtensionProperties"),
   tl ("vkEnumerateInstanceLayerProperties"), tl ("vkCreateInstance")]

/-- The set literal `{"VkDevice", "VkQueue", "VkCommandBuffer"}` tested in
`genCmd`'s device-group branch. -/
def dispatchableHandleNames : List (List Char) :=
  [tl ("VkDevice"), tl ("VkQueue"), tl ("VkCommandBuffer")]

/-- The command-classification state of a `DGenerator`. -/
structure GenState where
  cmds : List Command
  globalCmds : List Command
  instanceCmdNames : List (List Char)
  instanceCmds : List Command
  deviceCmdNames : List (List Char)
  deviceCmds : List Command
deriving DecidableEq

/-- The classification state of a freshly constructed `DGenerator`. -/
def genInit : GenState := ⟨[], [], [], [], [], []⟩

/-- Python `set.add`: membership-deduplicating insertion (order of a Python
set is unspecified; these name sets are never read back, so a list model
suffices). -/
def pySetAdd (s : List (List Char)) (x : List Char) : List (List Char) :=
  if x ∈ s then s else s ++ [x]

/-- `DGenerator.genCmd` (vkdgen.py lines 361-380): record the command in the
total list, then in exactly one of the three groups.  Note the device-group
test is `params[0].name in {"VkDevice", "VkQueue", "VkCommandBuffer"}` — the
first parameter's *name* field, not its type string. -/
def genCmd (st : GenState) (ret name : List Char) (params : List Param) : GenState :=
  let cmd : Command := ⟨ret, name, params⟩
  let st1 := { st with cmds := st.cmds ++ [cmd] }
  if name ∈ globalCmdNames then
    { st1 with globalCmds := st1.globalCmds ++ [cmd] }
  else
    match params with
    | [] =>
      { st1 with instanceCmds := st1.instanceCmds ++ [cmd],
                 instanceCmdNames := pySetAdd st1.instanceCmdNames name }
    | p :: _ =>
      if p.name ∈ dispatchableHandleNames then
        { st1 with deviceCmds := st1.deviceCmds ++ [cmd],
                   deviceCmdNames := pySetAdd st1.deviceCmdNames name }
      else
        { st1 with instanceCmds := st1.instanceCmds ++ [cmd],
                   instanceCmdNames := pySetAdd st1.instanceCmdNames name }

/-- Deliver a stream of commands (return type, name, parameter list) to
`genCmd`, as the registry front end does during one run. -/
def runCmds (entries : List (List Char × List Char × List Param)) (st : GenState) : GenState :=
  entries.foldl (fun s e => genCmd s e.1 e.2.1 e.2.2) st

/-- The `Command` record `genCmd` builds from one delivery. -/
def mkCommand (e : List Char × List Char × List Param) : Command := ⟨e.1, e.2.1, e.2.2⟩

/-- Classification predicate of the global group, as coded: name on the
allow-list. -/
def isGlobalName (name : List Char) : Bool := decide (name ∈ globalCmdNames)

/-- Classification predicate of the device group, as coded: not allow-listed,
non-empty parameter list, and the first parameter's *name* field in the
dispatchable-owner set. -/
def isDeviceClassified (name : List Char) (params : List Param) : Bool :=
  !isGlobalName name &&
    (match params with
     | [] => false
     | p :: _ => decide (p.name ∈ dispatchableHandleNames))

/-- Classification predicate of the instance group: everything else. -/
def isInstanceClassified (name : List Char) (params : List Param) : Bool :=
  !isGlobalName name &&
    !(match params with
      | [] => false
      | p :: _ => decide (p.name ∈ dispatchableHandleNames))

/-! ## `genEnum` (vkdgen.py lines 310-315) -/

/-- The single line `genEnum` appends to the constants section (at depth 0):
`enum <name> = <value>;` with `"0ULL"` replaced by `"0uL"` and then `"0U"`
replaced by `"0u"` in the value literal. -/
def genEnumLine (name strVal : List Char) : List Char :=
  tl ("enum ") ++ name ++ tl (" = ") ++
    pyReplace (pyReplace strVal (tl ("0ULL")) (tl ("0uL"))) (tl ("0U")) (tl ("0u")) ++ tl (";")

/-! ## `genGroup` (vkdgen.py lines 317-341)

An enum group's members reach the generator as `<enum>` child elements; each
contributes a name and a rendered value (`enumToValue` lives in the external
registry library, so values are opaque strings here).  The lines below are
appended to the `ENUM` section, whose indentation is 0 at entry; the block
body is written inside one `indent_block()`. -/

/-- Lines appended by `genGroup` for group `name` with `members`
(name, rendered value) pairs, in schema order. -/
def genGroupLines (name : List Char) (members : List (List Char × List Char)) : List (List Char) :=
  let repStr := if listEndsWith name (tl ("FlagBits")) then tl (" : VkFlags") else []
  let maxLen := members.foldl (fun m mb => max m mb.1.length) 0
  (tl ("enum ") ++ name ++ repStr ++ tl (" \x7b"))
    :: (members.map (fun mb =>
          tl ("    ") ++ mb.1 ++ List.replicate (maxLen - mb.1.length) (' ')
            ++ tl (" = ") ++ mb.2 ++ tl (",")))
    ++ (tl ("\x7d")
          :: members.map (fun mb =>
               tl ("enum ") ++ mb.1 ++ List.replicate (maxLen - mb.1.length) (' ')
                 ++ tl (" = ") ++ name ++ tl (".") ++ mb.1 ++ tl (";"))
          ++ [[]])

/-- The longest member-name width of a group, written as the spec states it:
the maximum over the member names' rendered widths. -/
def specGroupWidth (members : List (List Char × List Char)) : Nat :=
  (members.map (fun mb => mb.1.length)).foldr max 0

/-- Modelled from the spec: the enumeration block as §4.3 words it — a type
declaration with storage annotation exactly when the name carries the
flag-bits marker, one line per schema member in schema order with the name
right-padded to the group's longest member name, a closing brace, one
free-standing alias per member, and a separating blank line. -/
def specGroupLines (name : List Char) (members : List (List Char × List Char)) : List (List Char) :=
  let w := specGroupWidth members
  (tl ("enum ") ++ name
     ++ (if listEndsWith name (tl ("FlagBits")) then tl (" : VkFlags") else []) ++ tl (" \x7b"))
    :: (members.map (fun mb => tl ("    ") ++ padTo w mb.1 ++ tl (" = ") ++ mb.2 ++ tl (",")))
    ++ (tl ("\x7d")
          :: members.map (fun mb =>
               tl ("enum ") ++ padTo w mb.1 ++ tl (" = ") ++ name ++ tl (".") ++ mb.1 ++ tl (";"))
          ++ [[]])

/-! ## `genType` for `funcpointer` entities (vkdgen.py lines 290-307)

The return type is extracted with `re_funcptr = ^typedef (.+) \(VKAPI_PTR \*$`
from the element's leading text; the parameter text is the concatenation of
the element's remaining text fragments (`itertext` from index 2 on) minus the
leading `)(`.  Any parameter line that splits into more than two
whitespace-separated tokens reaches the call `convertTypeConst(...)` — a name
that is defined nowhere in the program (the rewriter is `convertDTypeConst`),
so Python raises `NameError`; that branch is embedded as an error. -/

/-- The error value for the undefined-name call in the funcpointer branch. -/
def convertTypeConstUndefined : List Char :=
  tl ("NameError: name convertTypeConst is not defined")

/-- `re.match(re_funcptr, s).group(1)`: `^typedef (.+) \(VKAPI_PTR \*$`
(with `$` also accepting one trailing newline, and `.` not crossing one). -/
def matchFuncptrRet (s : List Char) : Option (List Char) :=
  let core := if s.getLast? = some ('\n') then s.dropLast else s
  if core.take 8 = tl ("typedef ") ∧ 22 ≤ core.length
      ∧ core.drop (core.length - 13) = tl (" (VKAPI_PTR *") then
    let mid := (core.drop 8).take (core.length - 21)
    if mid.contains ('\n') then none else some mid
  else none

/-- The `for line in params.splitlines()` loop: a line of more than two
tokens hits the undefined `convertTypeConst`; otherwise the tokens are
re-joined with single spaces, each line preceded by one space. -/
def concatParamsLoop : List (List Char) → Except (List Char) (List Char)
  | [] => Except.ok []
  | line :: rest =>
    if 2 < (pySplitWs line).length then Except.error convertTypeConstUndefined
    else
      match concatParamsLoop rest with
      | Except.error e => Except.error e
      | Except.ok acc =>
        Except.ok (((' ') :: List.intercalate (tl (" ")) (pySplitWs line)) ++ acc)

/-- The `funcpointer` branch of `genType`: on success, the single alias line
appended to the `FUNCPTR` section; on failure, the Python exception. -/
def genTypeFuncptr (name elemText : List Char) (fragments : List (List Char)) :
    Except (List Char) (List Char) :=
  match matchFuncptrRet elemText with
  | none => Except.error (tl ("AttributeError"))
  | some returnType =>
    let params0 := ((fragments.drop 2).flatten).drop 2
    if params0 = tl ("void);") ∨ params0 = tl (" void );") then
      Except.ok (tl ("alias ") ++ name ++ tl (" = ") ++ returnType ++ tl (" function(") ++ tl (");"))
    else
      match concatParamsLoop (splitlines params0) with
      | Except.error e => Except.error e
      | Except.ok cp =>
        Except.ok (tl ("alias ") ++ name ++ tl (" = ") ++ returnType ++ tl (" function(")
          ++ cp.drop 2)

/-! ## `endFile`'s command finishing pass (vkdgen.py lines 233-261)

After traversal, one `alias PFN_<name> = <ret> function (...)` is emitted per
recorded command inside an `extern(C) { ... }` block in the `CMD` section.
`maxLen` is reset to 0 for each command of the loop. -/

/-- `maxLen` as computed by the source: a fold over one command's parameters. -/
def maxParamLen (ps : List Param) : Nat :=
  ps.foldl (fun m p => max m p.typeStr.length) 0

/-- The opening text `alias PFN_<name> = <ret> function (` of a command's alias. -/
def fstLine (cmd : Command) : List Char :=
  tl ("alias PFN_") ++ cmd.name ++ tl (" = ") ++ cmd.returnType ++ tl (" function (")

/-- The multi-parameter loop: first line opens with `pre`, subsequent lines
continue at a space run of the same width; every type is padded to `maxLen`;
the last line closes with `);`, the others end with `,`. -/
def multiLines (pre : List Char) (maxLen : Nat) : List Param → List (List Char)
  | [] => []
  | [p] =>
    [pre ++ p.typeStr ++ List.replicate (maxLen - p.typeStr.length) (' ')
       ++ (' ') :: p.name ++ tl (");")]
  | p :: q :: rest =>
    (pre ++ p.typeStr ++ List.replicate (maxLen - p.typeStr.length) (' ')
       ++ (' ') :: p.name ++ tl (","))
      :: multiLines (List.replicate pre.length (' ')) maxLen (q :: rest)

/-- The alias lines of one command, as the source emits them (before the
section indentation is prefixed). -/
def cmdAliasLines (cmd : Command) : List (List Char) :=
  match cmd.params with
  | [] => [fstLine cmd ++ tl (");")]
  | [p] => [fstLine cmd ++ p.typeStr ++ (' ') :: p.name ++ tl (");")]
  | p :: q :: rest => multiLines (fstLine cmd) (maxParamLen (p :: q :: rest)) (p :: q :: rest)

/-- All lines `endFile` appends to the `CMD` section (which sits at depth 0
when `endFile` runs; the per-command lines are written inside one
`indent_block()`, hence the four-space prefix). -/
def endFileCmdLines (cmds : List Command) : List (List Char) :=
  tl ("extern(C) \x7b")
    :: (cmds.map (fun c => (cmdAliasLines c).map (fun l => tl ("    ") ++ l))).flatten
    ++ [tl ("\x7d")]

/-- One command's parameter-type column width as the amended spec states it:
the maximum rendered parameter-type width across that command's own
parameters. -/
def specParamTypeWidth (ps : List Param) : Nat :=
  (ps.map (fun p => p.typeStr.length)).foldr max 0

/-- Modelled from the spec (§4.4 with the per-command width amendment): a
zero-parameter command is a single closed line; a one-parameter command is a
single line with no internal alignment; a multi-parameter command has one
parameter per line, the types padded to the command's own column width, the
continuation lines aligned to the opening line's column. -/
def specCmdAliasLines (cmd : Command) : List (List Char) :=
  match cmd.params with
  | [] => [fstLine cmd ++ tl (");")]
  | [p] => [fstLine cmd ++ p.typeStr ++ (' ') :: p.name ++ tl (");")]
  | p :: q :: rest =>
    let ps := p :: q :: rest
    let w := specParamTypeWidth ps
    ps.enum.map (fun ip =>
      (if ip.1 = 0 then fstLine cmd else List.replicate (fstLine cmd).length (' '))
        ++ padTo w ip.2.typeStr ++ (' ') :: ip.2.name
        ++ (if ip.1 = ps.length - 1 then tl (");") else tl (",")))

/-- Modelled from the spec: the whole finishing-pass block — one alias-line
group per recorded command, in discovery order, inside the `extern(C)` block. -/
def specEndFileCmdLines (cmds : List Command) : List (List Char) :=
  tl ("extern(C) \x7b")
    :: (cmds.map (fun c => (specCmdAliasLines c).map (fun l => tl ("    ") ++ l))).flatten
    ++ [tl ("\x7d")]

/-! ## A per-section collector for the flush-order statement

`collectSect s` replays an operation list and keeps only the lines appended
while section `s` was active, with the indentation they were given at append
time.  It never consults any other section's lines, so the concatenation of
the collectors over `sectOrder` is by construction "each section's appends in
order, sections in declaration order, independent of interleaving". -/

/-- The lines appended to section `s` by `ops`, starting from active section
`cur` and per-section indentation levels `ind`. -/
def collectSect (s : Sect) : Sect → (Sect → Nat) → List SFOp → List (List Char)
  | _, _, [] => []
  | _, ind, SFOp.setSect s2 :: ops => collectSect s s2 ind ops
  | cur, ind, SFOp.putLine l :: ops =>
    if cur = s then (indentChars (ind cur) ++ l) :: collectSect s cur ind ops
    else collectSect s cur ind ops
  | cur, ind, SFOp.indentOp :: ops =>
    collectSect s cur (fun t => if t = cur then ind t + 1 else ind t) ops
  | cur, ind, SFOp.unindentOp :: ops =>
    collectSect s cur (fun t => if t = cur then ind t - 1 else ind t) ops

/-! ## Concrete inputs used by the counterexamples and witnesses -/

/-- A recorded command `A(AB a, ABCDEFGH b)` — parameter-type widths 2 and 8. -/
def cmdWide : Command :=
  ⟨tl ("void"), tl ("A"), [⟨tl ("AB"), tl ("a")⟩, ⟨tl ("ABCDEFGH"), tl ("b")⟩]⟩

/-- A recorded command `B(AB x, ABCD y)` — parameter-type widths 2 and 4. -/
def cmdNarrow : Command :=
  ⟨tl ("void"), tl ("B"), [⟨tl ("AB"), tl ("x")⟩, ⟨tl ("ABCD"), tl ("y")⟩]⟩

/-- Buffer operations interleaving two sections: `CONST`, then `BASETYPE`,
then `CONST` again. -/
def opsInterleaved : List SFOp :=
  [SFOp.setSect Sect.CONST, SFOp.putLine (tl ("enum A = 1;")),
   SFOp.setSect Sect.BASETYPE, SFOp.putLine (tl ("alias B = C;")),
   SFOp.setSect Sect.CONST, SFOp.putLine (tl ("enum D = 2;"))]

/-- The state reached by `opsInterleaved` from a fresh buffer. -/
def stInterleaved : SFState := (runOps opsInterleaved sfInit).getD sfInit

/-- Buffer operations appending a line with trailing blanks at depth 1. -/
def opsTrailing : List SFOp :=
  [SFOp.indentOp, SFOp.putLine (tl ("ab  ")), SFOp.putLine []]

/-- The state reached by `opsTrailing` from a fresh buffer. -/
def stTrailing : SFState := (runOps opsTrailing sfInit).getD sfInit

/-! ## Helper lemmas -/

theorem isPySpace_space : isPySpace (' ') = true := rfl

theorem isPySpace_star : isPySpace ('*') = false := rfl

/-- `rstrip` keeps a list ending in `*` intact. -/
theorem rstrip_concat_star (l : List Char) : rstrip (l ++ [('*')]) = l ++ [('*')] := by
  unfold rstrip
  rw [List.reverse_append]
  simp [List.dropWhile_cons, isPySpace_star]

/-- `rstrip` drops exactly the final space of a list ending in `*`, ` `. -/
theorem rstrip_concat_star_space (l : List Char) :
    rstrip (l ++ [('*'), (' ')]) = l ++ [('*')] := by
  unfold rstrip
  have : l ++ [('*'), (' ')] = (l ++ [('*')]) ++ [(' ')] := by simp
  rw [this, List.reverse_append, List.reverse_append]
  simp [List.dropWhile_cons, isPySpace_space, isPySpace_star]

/-- The leading-whitespace run of a list with a non-space head is empty. -/
theorem takeWhile_pySpace_head_false (x : Char) (r : List Char) (hx : isPySpace x = false) :
    (x :: r).takeWhile isPySpace = [] := by
  simp [List.takeWhile_cons, hx]

/-- The single-indirection pattern on `const <X>*` extracts exactly `X`
when `X` starts with a non-space character and contains no newline. -/
theorem matchSingleConst_shape (x : Char) (xs : List Char)
    (hx : isPySpace x = false) (hn : (x :: xs).contains ('\n') = false) :
    matchSingleConst (tl ("const ") ++ (x :: xs) ++ [('*')]) = some (x :: xs) := by
  have hin : tl ("const ") ++ (x :: xs) ++ [('*')]
      = 'c' :: 'o' :: 'n' :: 's' :: 't' :: ((' ' :: (x :: xs)) ++ [('*')]) := by
    simp [tl]
  rw [hin]
  simp only [matchSingleConst]
  have hk : (((' ' :: (x :: xs)) ++ [('*')]).takeWhile isPySpace).length = 1 := by
    rw [List.cons_append, List.takeWhile_cons]
    simp [isPySpace_space, takeWhile_pySpace_head_false x (xs ++ [('*')]) hx]
  rw [hk]
  have hu : rstrip ((' ' :: (x :: xs)) ++ [('*')]) = (' ' :: (x :: xs)) ++ [('*')] :=
    rstrip_concat_star _
  rw [hu]
  simp only [groupFromStar, List.getLast?_concat]
  have hlen : ((' ' :: (x :: xs)) ++ [('*')]).length = xs.length + 3 := by simp
  rw [hlen]
  have h2 : 1 + 1 ≤ xs.length + 3 - 1 := by omega
  simp only [if_pos h2, reduceIte]
  have hdrop : ((' ' :: (x :: xs)) ++ [('*')]).drop 1 = (x :: xs) ++ [('*')] := rfl
  have htake : ((x :: xs) ++ [('*')]).take (xs.length + 3 - 1 - 1) = x :: xs := by
    apply List.take_left'
    simp
  simp only [hdrop, htake, hn]
  simp

/-- The double-indirection pattern on `const <X>* const*` extracts exactly `X`
when `X` starts with a non-space character and contains no newline. -/
theorem matchDoubleConst_shape (x : Char) (xs : List Char)
    (hx : isPySpace x = false) (hn : (x :: xs).contains ('\n') = false) :
    matchDoubleConst (tl ("const ") ++ (x :: xs) ++ tl ("* const*")) = some (x :: xs) := by
  have hin : tl ("const ") ++ (x :: xs) ++ tl ("* const*")
      = 'c' :: 'o' :: 'n' :: 's' :: 't' ::
          ((' ' :: (x :: xs)) ++ ([('*'), (' ')] ++ tl ("const*"))) := by
    simp [tl]
  rw [hin]
  simp only [matchDoubleConst]
  have hk : ((((' ' :: (x :: xs)) ++ ([('*'), (' ')] ++ tl ("const*")))).takeWhile
      isPySpace).length = 1 := by
    rw [List.cons_append, List.takeWhile_cons]
    simp [isPySpace_space, takeWhile_pySpace_head_false x _ hx]
  rw [hk]
  have hsplit : (' ' :: (x :: xs)) ++ ([('*'), (' ')] ++ tl ("const*"))
      = ((' ' :: (x :: xs)) ++ [('*'), (' ')]) ++ tl ("const*") := by
    simp
  have hu : rstrip ((' ' :: (x :: xs)) ++ ([('*'), (' ')] ++ tl ("const*")))
      = (' ' :: (x :: xs)) ++ ([('*'), (' ')] ++ tl ("const*")) := by
    rw [hsplit]
    have : ((' ' :: (x :: xs)) ++ [('*'), (' ')]) ++ tl ("const*")
        = (((' ' :: (x :: xs)) ++ [('*'), (' ')]) ++ tl ("const")) ++ [('*')] := by
      simp [tl]
    rw [this, rstrip_concat_star]
  rw [hu]
  have hlen : ((' ' :: (x :: xs)) ++ ([('*'), (' ')] ++ tl ("const*"))).length
      = xs.length + 10 := by simp [tl]
  rw [hlen]
  have hdropc : ((' ' :: (x :: xs)) ++ ([('*'), (' ')] ++ tl ("const*"))).drop
      (xs.length + 10 - 6) = tl ("const*") := by
    have : (' ' :: (x :: xs)) ++ ([('*'), (' ')] ++ tl ("const*"))
        = ((' ' :: (x :: xs)) ++ [('*'), (' ')]) ++ tl ("const*") := by simp
    rw [this]
    apply List.drop_left'
    simp
  have htakec : ((' ' :: (x :: xs)) ++ ([('*'), (' ')] ++ tl ("const*"))).take
      (xs.length + 10 - 6) = (' ' :: (x :: xs)) ++ [('*'), (' ')] := by
    rw [hsplit]
    apply List.take_left'
    simp
  have hcond : 6 ≤ xs.length + 10 ∧
      ((' ' :: (x :: xs)) ++ ([('*'), (' ')] ++ tl ("const*"))).drop (xs.length + 10 - 6)
        = tl ("const*") := ⟨by omega, hdropc⟩
  rw [if_pos hcond, htakec]
  have hw : rstrip ((' ' :: (x :: xs)) ++ [('*'), (' ')]) = (' ' :: (x :: xs)) ++ [('*')] :=
    rstrip_concat_star_space _
  rw [hw]
  have hwl : ((' ' :: (x :: xs)) ++ [('*')]).length = xs.length + 3 := by simp
  have hvl : ((' ' :: (x :: xs)) ++ [('*'), (' ')]).length = xs.length + 4 := by simp
  rw [hwl, hvl]
  have hne : ¬ (xs.length + 3 = xs.length + 4) := by omega
  rw [if_neg hne]
  simp only [groupFromStar, List.getLast?_concat]
  rw [hwl]
  have h2 : 1 + 1 ≤ xs.length + 3 - 1 := by omega
  simp only [if_pos h2, reduceIte]
  have hdrop : ((' ' :: (x :: xs)) ++ ([('*'), (' ')] ++ tl ("const*"))).drop 1
      = (x :: xs) ++ ([('*'), (' ')] ++ tl ("const*")) := rfl
  have htake : ((x :: xs) ++ ([('*'), (' ')] ++ tl ("const*"))).take (xs.length + 3 - 1 - 1)
      = x :: xs := by
    apply List.take_left'
    simp
  simp only [hdrop, htake, hn]
  simp

/-- `pyReplaceF` is the identity when `pat` occurs nowhere in `s`. -/
theorem pyReplaceF_not_found (pat rep : List Char) :
    ∀ (f : Nat) (s : List Char), hasInfix s pat = false → pyReplaceF f s pat rep = s := by
  intro f
  induction f with
  | zero => intro s _; rfl
  | succ f ih =>
    intro s h
    cases s with
    | nil => rfl
    | cons c rest =>
      simp only [hasInfix, Bool.or_eq_false_iff] at h
      simp only [pyReplaceF]
      rw [if_neg, ih rest h.2]
      intro hcon
      rw [h.1] at hcon
      exact Bool.false_ne_true hcon.2

/-- `s.replace(pat, rep)` is the identity when `pat` occurs nowhere in `s`. -/
theorem pyReplace_not_found (s pat rep : List Char) (h : hasInfix s pat = false) :
    pyReplace s pat rep = s :=
  pyReplaceF_not_found pat rep s.length s h

/-- The source's running-maximum fold equals the spec's maximum over the
mapped widths. -/
theorem foldl_max_map {α : Type} (f : α → Nat) :
    ∀ (l : List α) (a : Nat),
      l.foldl (fun m x => max m (f x)) a = max a ((l.map f).foldr max 0) := by
  intro l
  induction l with
  | nil => intro a; simp
  | cons x xs ih =>
    intro a
    simp only [List.foldl_cons, List.map_cons, List.foldr_cons]
    rw [ih (max a (f x)), Nat.max_assoc]

/-- Every element's width is bounded by the folded maximum. -/
theorem le_foldr_max_map {α : Type} (f : α → Nat) :
    ∀ (l : List α) (x : α), x ∈ l → f x ≤ (l.map f).foldr max 0 := by
  intro l
  induction l with
  | nil => intro x hx; cases hx
  | cons y ys ih =>
    intro x hx
    simp only [List.map_cons, List.foldr_cons]
    rcases List.mem_cons.mp hx with h | h
    · subst h; exact Nat.le_max_left _ _
    · exact Nat.le_trans (ih x h) (Nat.le_max_right _ _)

/-- The source's `lineSpace`-threading loop written as a map over indexed
parameters: the first line opens with `pre`, the others with a space run of
`pre`'s width, and the line of the last index closes with `);`. -/
theorem multiLines_eq_enumFrom (w : Nat) :
    ∀ (ps : List Param) (pre : List Char) (n : Nat), ps ≠ [] →
      multiLines pre w ps = (List.enumFrom n ps).map (fun ip =>
        (if ip.1 = n then pre else List.replicate pre.length (' '))
          ++ ip.2.typeStr ++ List.replicate (w - ip.2.typeStr.length) (' ')
          ++ (' ') :: ip.2.name
          ++ (if ip.1 = n + ps.length - 1 then tl (");") else tl (","))) := by
  intro ps
  induction ps with
  | nil => intro pre n h; exact absurd rfl h
  | cons p tail ih =>
    intro pre n _
    cases tail with
    | nil =>
      simp [multiLines, List.enumFrom_cons]
    | cons q rest =>
      rw [multiLines, List.enumFrom_cons, List.map_cons,
        ih (List.replicate pre.length (' ')) (n + 1) (by simp)]
      congr 1
      · have h0 : ¬ (n = n + (p :: q :: rest).length - 1) := by
          simp only [List.length_cons]
          omega
        simp [h0]
      · apply List.map_congr_left
        intro a ha
        obtain ⟨i, x⟩ := a
        have hb := List.mem_enumFrom ha
        have hi : ¬ (i = n) := by omega
        have hlen : (i = n + 1 + (q :: rest).length - 1) ↔ (i = n + (p :: q :: rest).length - 1) := by
          simp only [List.length_cons]
          constructor <;> (intro h; omega)
        simp only [List.length_replicate, ite_self, hlen, if_neg hi]

/-- One command's alias lines agree with the spec-side description (with the
per-command column width). -/
theorem cmdAliasLines_eq_spec (cmd : Command) : cmdAliasLines cmd = specCmdAliasLines cmd := by
  obtain ⟨ret, nm, ps⟩ := cmd
  cases ps with
  | nil => rfl
  | cons p tail =>
    cases tail with
    | nil => rfl
    | cons q rest =>
      show multiLines _ _ _ = _
      have hw : maxParamLen (p :: q :: rest) = specParamTypeWidth (p :: q :: rest) := by
        unfold maxParamLen specParamTypeWidth
        have := foldl_max_map (fun r : Param => r.typeStr.length) (p :: q :: rest) 0
        simpa using this
      rw [hw, multiLines_eq_enumFrom (specParamTypeWidth (p :: q :: rest)) (p :: q :: rest)
        (fstLine (Command.mk ret nm (p :: q :: rest))) 0 (by simp)]
      simp [specCmdAliasLines, List.enum, padTo]

/-- The multi-parameter loop emits one line per parameter. -/
theorem multiLines_length (w : Nat) :
    ∀ (ps : List Param) (pre : List Char), ps ≠ [] →
      (multiLines pre w ps).length = ps.length := by
  intro ps
  induction ps with
  | nil => intro pre h; exact absurd rfl h
  | cons p tail ih =>
    intro pre _
    cases tail with
    | nil => rfl
    | cons q rest =>
      rw [multiLines]
      simp [ih (List.replicate pre.length (' ')) (by simp)]

/-- When a command is not allow-listed, the instance predicate is the
negation of the device predicate. -/
theorem instance_eq_not_device (n : List Char) (ps : List Param)
    (hg : isGlobalName n = false) :
    isInstanceClassified n ps = !(isDeviceClassified n ps) := by
  unfold isInstanceClassified isDeviceClassified
  rw [hg]
  simp

/-- Effect of one `genCmd` call on every command list, expressed through the
three classification predicates. -/
theorem genCmd_fields (st : GenState) (ret nm : List Char) (ps : List Param) :
    (genCmd st ret nm ps).cmds = st.cmds ++ [Command.mk ret nm ps]
    ∧ (genCmd st ret nm ps).globalCmds
        = st.globalCmds ++ (if isGlobalName nm then [Command.mk ret nm ps] else [])
    ∧ (genCmd st ret nm ps).deviceCmds
        = st.deviceCmds ++ (if isDeviceClassified nm ps then [Command.mk ret nm ps] else [])
    ∧ (genCmd st ret nm ps).instanceCmds
        = st.instanceCmds ++ (if isInstanceClassified nm ps then [Command.mk ret nm ps] else []) := by
  by_cases hg : nm ∈ globalCmdNames
  · have hpg : isGlobalName nm = true := by simp [isGlobalName, hg]
    have hpd : isDeviceClassified nm ps = false := by simp [isDeviceClassified, hpg]
    have hpi : isInstanceClassified nm ps = false := by simp [isInstanceClassified, hpg]
    simp [genCmd, hg, hpg, hpd, hpi]
  · have hpg : isGlobalName nm = false := by simp [isGlobalName, hg]
    cases ps with
    | nil =>
      have hpd : isDeviceClassified nm [] = false := by simp [isDeviceClassified]
      have hpi : isInstanceClassified nm [] = true := by simp [isInstanceClassified, hpg]
      simp [genCmd, hg, hpg, hpd, hpi]
    | cons p pt =>
      by_cases hd : p.name ∈ dispatchableHandleNames
      · have hpd : isDeviceClassified nm (p :: pt) = true := by
          simp [isDeviceClassified, hpg, hd]
        have hpi : isInstanceClassified nm (p :: pt) = false := by
          simp [isInstanceClassified, hd]
        simp [genCmd, hg, hpg, hd, hpd, hpi]
      · have hpd : isDeviceClassified nm (p :: pt) = false := by
          simp [isDeviceClassified, hd]
        have hpi : isInstanceClassified nm (p :: pt) = true := by
          simp [isInstanceClassified, hpg, hd]
        simp [genCmd, hg, hpg, hd, hpd, hpi]

/-- The cumulative effect of a run of `genCmd` calls: the total list extends
by the delivered commands in order, and each group list extends by the
commands its predicate selects. -/
theorem runCmds_state (entries : List (List Char × List Char × List Param)) :
    ∀ st : GenState,
      (runCmds entries st).cmds = st.cmds ++ entries.map mkCommand
      ∧ (runCmds entries st).globalCmds
          = st.globalCmds ++ (entries.map mkCommand).filter (fun c => isGlobalName c.name)
      ∧ (runCmds entries st).deviceCmds
          = st.deviceCmds
            ++ (entries.map mkCommand).filter (fun c => isDeviceClassified c.name c.params)
      ∧ (runCmds entries st).instanceCmds
          = st.instanceCmds
            ++ (entries.map mkCommand).filter (fun c => isInstanceClassified c.name c.params) := by
  induction entries with
  | nil => intro st; simp [runCmds]
  | cons e es ih =>
    intro st
    obtain ⟨ret, nm, ps⟩ := e
    have hrun : runCmds ((ret, nm, ps) :: es) st = runCmds es (genCmd st ret nm ps) := rfl
    rw [hrun]
    obtain ⟨h1, h2, h3, h4⟩ := ih (genCmd st ret nm ps)
    obtain ⟨g1, g2, g3, g4⟩ := genCmd_fields st ret nm ps
    rw [h1, h2, h3, h4, g1, g2, g3, g4]
    refine ⟨by simp [mkCommand], ?_, ?_, ?_⟩ <;>
      · simp only [List.map_cons, List.filter_cons, mkCommand, List.append_assoc]
        split <;> simp

/-- The three classification predicates select each command exactly once. -/
theorem three_filter_length (l : List Command) :
    (l.filter (fun c => isGlobalName c.name)).length
      + (l.filter (fun c => isDeviceClassified c.name c.params)).length
      + (l.filter (fun c => isInstanceClassified c.name c.params)).length = l.length := by
  induction l with
  | nil => rfl
  | cons c cs ih =>
    simp only [List.filter_cons]
    by_cases hg : isGlobalName c.name = true
    · have hd : isDeviceClassified c.name c.params = false := by
        unfold isDeviceClassified
        rw [hg]
        simp
      have hi : isInstanceClassified c.name c.params = false := by
        unfold isInstanceClassified
        rw [hg]
        simp
      simp only [hg, hd, hi, if_pos, Bool.false_eq_true, if_neg, ite_false, ite_true,
        List.length_cons]
      omega
    · have hgf : isGlobalName c.name = false := by simpa using hg
      have hi := instance_eq_not_device c.name c.params hgf
      cases hd : isDeviceClassified c.name c.params
      · rw [hd] at hi
        simp only [hgf, hd, hi, Bool.not_false, Bool.false_eq_true, ite_false, ite_true,
          List.length_cons]
        omega
      · rw [hd] at hi
        simp only [hgf, hd, hi, Bool.not_true, Bool.false_eq_true, ite_false, ite_true,
          List.length_cons]
        omega

theorem getSec_setSec_same (m : SFSections) (s : Sect) (v : SFSection) :
    getSec (setSec m s v) s = v := by
  cases s <;> rfl

theorem getSec_setSec_other (m : SFSections) (s t : Sect) (v : SFSection) (h : t ≠ s) :
    getSec (setSec m s v) t = getSec m t := by
  cases s <;> cases t <;> first | rfl | exact absurd rfl h

/-- Reading a section after writing one: overwrite at the written tag, no
change elsewhere. -/
theorem getSec_setSec (m : SFSections) (s t : Sect) (v : SFSection) :
    getSec (setSec m s v) t = if t = s then v else getSec m t := by
  by_cases h : t = s
  · subst h; rw [if_pos rfl, getSec_setSec_same]
  · rw [if_neg h, getSec_setSec_other m s t v h]

/-- The heart of the flush-order argument: after a successful run, each
section's line list is its initial list followed by exactly the lines the
per-section collector attributes to it — independent of how the operations
interleaved the sections. -/
theorem runOps_lines (ops : List SFOp) :
    ∀ (st st' : SFState), runOps ops st = some st' → ∀ s : Sect,
      (getSec st'.sections s).lines
        = (getSec st.sections s).lines
          ++ collectSect s st.sect (fun t => (getSec st.sections t).indent) ops := by
  induction ops with
  | nil =>
    intro st st' h s
    have hst : st = st' := by simpa [runOps] using h
    subst hst
    simp [collectSect]
  | cons op ops ih =>
    intro st st' h s
    cases op with
    | setSect s2 =>
      have h' : runOps ops { st with sect := s2 } = some st' := h
      rw [ih _ _ h' s]
      rfl
    | putLine l =>
      have h' : runOps ops { st with sections := setSec st.sections st.sect (SFSection.mk ((getSec st.sections st.sect).lines ++ [indentChars (getSec st.sections st.sect).indent ++ l]) ((getSec st.sections st.sect).indent)) } = some st' := h
      rw [ih _ _ h' s]
      simp only [collectSect]
      have hind : (fun t => (getSec (setSec st.sections st.sect
            (SFSection.mk ((getSec st.sections st.sect).lines
                ++ [indentChars (getSec st.sections st.sect).indent ++ l])
              ((getSec st.sections st.sect).indent))) t).indent)
          = (fun t => (getSec st.sections t).indent) := by
        funext t
        rw [getSec_setSec]
        by_cases ht : t = st.sect
        · subst ht; rw [if_pos rfl]
        · rw [if_neg ht]
      rw [getSec_setSec, hind]
      by_cases hs : st.sect = s
      · rw [if_pos hs, if_pos hs.symm]
        subst hs
        simp
      · rw [if_neg hs, if_neg (fun hh => hs hh.symm)]
    | indentOp =>
      have h' : runOps ops { st with sections := setSec st.sections st.sect (SFSection.mk ((getSec st.sections st.sect).lines) ((getSec st.sections st.sect).indent + 1)) } = some st' := h
      rw [ih _ _ h' s]
      simp only [collectSect]
      have hind : (fun t => (getSec (setSec st.sections st.sect
            (SFSection.mk ((getSec st.sections st.sect).lines)
              ((getSec st.sections st.sect).indent + 1))) t).indent)
          = (fun t => if t = st.sect then (getSec st.sections t).indent + 1
              else (getSec st.sections t).indent) := by
        funext t
        rw [getSec_setSec]
        by_cases ht : t = st.sect
        · subst ht; rw [if_pos rfl, if_pos rfl]
        · rw [if_neg ht, if_neg ht]
      rw [getSec_setSec, hind]
      by_cases hs : s = st.sect
      · subst hs
        rw [if_pos rfl]
      · rw [if_neg hs]
    | unindentOp =>
      by_cases hz : (getSec st.sections st.sect).indent = 0
      · exfalso
        have hnone : runOps (SFOp.unindentOp :: ops) st = none := by
          simp [runOps, SFStep, hz]
        rw [hnone] at h
        cases h
      · have h' : runOps ops { st with sections := setSec st.sections st.sect (SFSection.mk ((getSec st.sections st.sect).lines) ((getSec st.sections st.sect).indent - 1)) } = some st' := by
          simpa [runOps, SFStep, hz] using h
        rw [ih _ _ h' s]
        simp only [collectSect]
        have hind : (fun t => (getSec (setSec st.sections st.sect
              (SFSection.mk ((getSec st.sections st.sect).lines)
                ((getSec st.sections st.sect).indent - 1))) t).indent)
            = (fun t => if t = st.sect then (getSec st.sections t).indent - 1
                else (getSec st.sections t).indent) := by
          funext t
          rw [getSec_setSec]
          by_cases ht : t = st.sect
          · subst ht; rw [if_pos rfl, if_pos rfl]
          · rw [if_neg ht, if_neg ht]
        rw [getSec_setSec, hind]
        by_cases hs : s = st.sect
        · subst hs
          rw [if_pos rfl]
        · rw [if_neg hs]

/-- The head of what remains after `dropWhile p` does not satisfy `p`. -/
theorem head_dropWhile_not (p : Char → Bool) :
    ∀ (l : List Char) (c : Char), (l.dropWhile p).head? = some c → p c = false := by
  intro l
  induction l with
  | nil => intro c h; cases h
  | cons a as ih =>
    intro c h
    rw [List.dropWhile_cons] at h
    by_cases hp : p a = true
    · rw [if_pos hp] at h
      exact ih c h
    · rw [if_neg hp] at h
      simp only [List.head?_cons, Option.some.injEq] at h
      subst h
      simpa using hp

/-- A right-stripped line never ends in a whitespace character. -/
theorem rstrip_last_not_space (x : List Char) (c : Char)
    (h : (rstrip x).getLast? = some c) : isPySpace c = false := by
  unfold rstrip at h
  rw [List.getLast?_reverse] at h
  exact head_dropWhile_not isPySpace x.reverse c h

/-- Indentation prefixes are all blanks, so they strip to nothing. -/
theorem rstrip_indentChars (n : Nat) : rstrip (indentChars n) = [] := by
  have hall : ∀ c ∈ indentChars n, isPySpace c = true := by
    intro c hc
    unfold indentChars at hc
    rw [List.mem_flatten] at hc
    obtain ⟨l, hl, hcl⟩ := hc
    rw [List.eq_of_mem_replicate hl] at hcl
    have hc' : c = (' ') := by simpa [oneIndentLevel, tl] using hcl
    rw [hc']
    rfl
  unfold rstrip
  rw [List.reverse_eq_nil_iff]
  rw [List.dropWhile_eq_nil_iff]
  intro x hx
  exact hall x (List.mem_reverse.mp hx)

/-! ## Claim theorems -/

/-- Claim C9: whatever interleaving of section switches, appends, indents and
unindents a successful run performs, the flushed output is the concatenation,
in the fixed declaration order of `Sect`, of the per-section collected line
sequences (each section's appends in append order) — it does not depend on
when each section was active. -/
theorem writeOut_fixed_section_order :
    ∀ (ops : List SFOp) (st' : SFState), runOps ops sfInit = some st' →
      writeOutLines st'
        = (sectOrder.map (fun s =>
            (collectSect s Sect.GLOBAL_DEF (fun _ => 0) ops).map rstrip)).flatten := by
  intro ops st' h
  unfold writeOutLines
  congr 1
  apply List.map_congr_left
  intro s _
  have hs := runOps_lines ops sfInit st' h s
  have hind : (fun t => (getSec sfInit.sections t).indent) = (fun _ : Sect => 0) := by
    funext t
    cases t <;> rfl
  have hnil : (getSec sfInit.sections s).lines = [] := by
    cases s <;> rfl
  rw [hind, hnil] at hs
  rw [hs]
  rfl

/-- Witness for C9: a run that interleaves the `CONST` and `BASETYPE`
sections still flushes as the fixed section order dictates. -/
theorem writeOut_fixed_section_order_witness :
    runOps opsInterleaved sfInit = some stInterleaved
    ∧ writeOutLines stInterleaved
        = (sectOrder.map (fun s =>
            (collectSect s Sect.GLOBAL_DEF (fun _ => 0) opsInterleaved).map rstrip)).flatten :=
  ⟨by decide, writeOut_fixed_section_order opsInterleaved stInterleaved (by decide)⟩

/-- Claim C10: every line of the flushed output is the stored line with its
trailing whitespace stripped, so no output line ends in a whitespace
character; and a line appended empty at any indentation depth flushes as a
fully empty line because the pure-indentation prefix strips to nothing. -/
theorem writeOut_strips_trailing_whitespace :
    (∀ (ops : List SFOp) (st' : SFState), runOps ops sfInit = some st' →
       ∀ l, l ∈ writeOutLines st' → ∀ c, l.getLast? = some c → isPySpace c = false)
    ∧ (∀ n : Nat, rstrip (indentChars n ++ ([] : List Char)) = []) := by
  constructor
  · intro ops st' _ l hl c hc
    unfold writeOutLines at hl
    rw [List.mem_flatten] at hl
    obtain ⟨g, hg, hlg⟩ := hl
    rw [List.mem_map] at hg
    obtain ⟨s, _, rfl⟩ := hg
    rw [List.mem_map] at hlg
    obtain ⟨x, _, rfl⟩ := hlg
    exact rstrip_last_not_space x c hc
  · intro n
    rw [List.append_nil]
    exact rstrip_indentChars n

/-- Witness for C10: in a run that appends `"ab  "` at depth 1, the flushed
line ends in `b`, not in a blank; and a depth-2 empty append flushes empty. -/
theorem writeOut_strips_trailing_whitespace_witness :
    isPySpace ('b') = false ∧ rstrip (indentChars 2 ++ ([] : List Char)) = [] :=
  ⟨writeOut_strips_trailing_whitespace.1 opsTrailing stTrailing (by decide)
     (tl ("    ab")) (by decide) ('b') (by decide),
   writeOut_strips_trailing_whitespace.2 2⟩

/-- Claim C1 (code bug): `genCmd` never consults the first parameter's
declared type.  A command whose first parameter has *type* `VkQueue` (name
`queue`) is recorded in the instance group, not the Handle/Device group; a
command whose first parameter merely has *name* `VkQueue` is recorded in the
Handle/Device group.  The branch compares `params[0].name` against the set
of dispatchable-owner type names. -/
theorem genCmd_first_param_type_not_consulted :
    (genCmd genInit (tl ("void")) (tl ("vkQueueSubmit"))
        [Param.mk (tl ("VkQueue")) (tl ("queue"))]).deviceCmds = []
    ∧ (genCmd genInit (tl ("void")) (tl ("vkQueueSubmit"))
        [Param.mk (tl ("VkQueue")) (tl ("queue"))]).instanceCmds
        = [Command.mk (tl ("void")) (tl ("vkQueueSubmit"))
            [Param.mk (tl ("VkQueue")) (tl ("queue"))]]
    ∧ (genCmd genInit (tl ("void")) (tl ("vkFakeCmd"))
        [Param.mk (tl ("FooType")) (tl ("VkQueue"))]).deviceCmds
        = [Command.mk (tl ("void")) (tl ("vkFakeCmd"))
            [Param.mk (tl ("FooType")) (tl ("VkQueue"))]] := by
  decide

/-- Claim C2 (code bug): the funcpointer branch of `genType` emits exactly
one alias line for an all-void parameter list and for parameter lines of at
most two tokens, but any parameter line of three or more whitespace-separated
tokens (e.g. `const char* pName`) reaches the call to `convertTypeConst`,
a name defined nowhere in the program, and raises `NameError` — it is fatal,
not best-effort. -/
theorem genType_funcpointer_raises_on_three_token_line :
    genTypeFuncptr (tl ("PFN_vkVoidFunction")) (tl ("typedef void (VKAPI_PTR *"))
        [tl ("typedef void (VKAPI_PTR *"), tl ("PFN_vkVoidFunction"), tl (")(void);")]
      = Except.ok (tl ("alias PFN_vkVoidFunction = void function();"))
    ∧ genTypeFuncptr (tl ("PFN_vkFoo")) (tl ("typedef void (VKAPI_PTR *"))
        [tl ("typedef void (VKAPI_PTR *"), tl ("PFN_vkFoo"), tl (")("),
         tl ("\n    void* pUserData);")]
      = Except.ok (tl ("alias PFN_vkFoo = void function(void* pUserData);"))
    ∧ genTypeFuncptr (tl ("PFN_vkBar")) (tl ("typedef void (VKAPI_PTR *"))
        [tl ("typedef void (VKAPI_PTR *"), tl ("PFN_vkBar"), tl (")("),
         tl ("\n    const char* pName);")]
      = Except.error convertTypeConstUndefined := by
  exact ⟨rfl, rfl, rfl⟩

/-- Claim C3 counterexample: with the two recorded commands
`A(AB a, ABCDEFGH b)` and `B(AB x, ABCD y)`, the full-list maximum
parameter-type width is 8, yet `B`'s first parameter line pads `AB` only to
`B`'s own width 4 — the line padded to the full-list width is absent from the
block. -/
theorem endFile_padding_not_global_counterexample :
    (tl ("    alias PFN_B = void function (AB   x,")) ∈ endFileCmdLines [cmdWide, cmdNarrow]
    ∧ (tl ("    alias PFN_B = void function (AB       x,"))
        ∉ endFileCmdLines [cmdWide, cmdNarrow] := by
  decide

/-- Claim C8: over any delivered command stream, the total list receives each
command exactly once in order, the three group lists are the filters of the
three mutually exclusive, jointly exhaustive classification predicates (so
every command lands in exactly one group), their lengths sum to the stream
length, and an allow-listed name always goes to the global group whatever its
parameters. -/
theorem genCmd_partitions_commands :
    ∀ entries : List (List Char × List Char × List Param),
      (runCmds entries genInit).cmds = entries.map mkCommand
      ∧ (runCmds entries genInit).globalCmds
          = (entries.map mkCommand).filter (fun c => isGlobalName c.name)
      ∧ (runCmds entries genInit).deviceCmds
          = (entries.map mkCommand).filter (fun c => isDeviceClassified c.name c.params)
      ∧ (runCmds entries genInit).instanceCmds
          = (entries.map mkCommand).filter (fun c => isInstanceClassified c.name c.params)
      ∧ (runCmds entries genInit).globalCmds.length
          + (runCmds entries genInit).deviceCmds.length
          + (runCmds entries genInit).instanceCmds.length = entries.length
      ∧ (∀ (st : GenState) (ret nm : List Char) (ps : List Param), nm ∈ globalCmdNames →
           (genCmd st ret nm ps).globalCmds = st.globalCmds ++ [Command.mk ret nm ps]
           ∧ (genCmd st ret nm ps).deviceCmds = st.deviceCmds
           ∧ (genCmd st ret nm ps).instanceCmds = st.instanceCmds) := by
  intro entries
  obtain ⟨h1, h2, h3, h4⟩ := runCmds_state entries genInit
  have e1 : (runCmds entries genInit).cmds = entries.map mkCommand := by
    simpa [genInit] using h1
  have e2 : (runCmds entries genInit).globalCmds
      = (entries.map mkCommand).filter (fun c => isGlobalName c.name) := by
    simpa [genInit] using h2
  have e3 : (runCmds entries genInit).deviceCmds
      = (entries.map mkCommand).filter (fun c => isDeviceClassified c.name c.params) := by
    simpa [genInit] using h3
  have e4 : (runCmds entries genInit).instanceCmds
      = (entries.map mkCommand).filter (fun c => isInstanceClassified c.name c.params) := by
    simpa [genInit] using h4
  refine ⟨e1, e2, e3, e4, ?_, ?_⟩
  · rw [e2, e3, e4, three_filter_length (entries.map mkCommand), List.length_map]
  · intro st ret nm ps hg
    have hpg : isGlobalName nm = true := by simp [isGlobalName, hg]
    have hpd : isDeviceClassified nm ps = false := by simp [isDeviceClassified, hpg]
    have hpi : isInstanceClassified nm ps = false := by simp [isInstanceClassified, hpg]
    obtain ⟨_, g2, g3, g4⟩ := genCmd_fields st ret nm ps
    rw [g2, g3, g4, hpg, hpd, hpi]
    simp

/-- Witness for C8: `vkCreateInstance` is allow-listed; even with a
`VkDevice`-typed (and `VkDevice`-named) first parameter it is recorded in the
global group and in neither other group. -/
theorem genCmd_partitions_commands_witness :
    (genCmd genInit (tl ("VkResult")) (tl ("vkCreateInstance"))
        [Param.mk (tl ("VkDevice")) (tl ("VkDevice"))]).globalCmds
      = genInit.globalCmds
        ++ [Command.mk (tl ("VkResult")) (tl ("vkCreateInstance"))
              [Param.mk (tl ("VkDevice")) (tl ("VkDevice"))]]
    ∧ (genCmd genInit (tl ("VkResult")) (tl ("vkCreateInstance"))
        [Param.mk (tl ("VkDevice")) (tl ("VkDevice"))]).deviceCmds = genInit.deviceCmds
    ∧ (genCmd genInit (tl ("VkResult")) (tl ("vkCreateInstance"))
        [Param.mk (tl ("VkDevice")) (tl ("VkDevice"))]).instanceCmds = genInit.instanceCmds :=
  (genCmd_partitions_commands []).2.2.2.2.2 genInit (tl ("VkResult")) (tl ("vkCreateInstance"))
    [Param.mk (tl ("VkDevice")) (tl ("VkDevice"))] (by decide)

/-- Claim C3 as amended: the parameter-type column width used to pad a
command's parameter lines is the maximum rendered parameter-type width across
that command's *own* parameters (`maxLen` is reset to 0 for every command of
the finishing-pass loop), not across the full command list. -/
theorem cmdAliasLines_width_per_command :
    ∀ cmd : Command, cmdAliasLines cmd = specCmdAliasLines cmd :=
  fun cmd => cmdAliasLines_eq_spec cmd

/-- Claim C4: the finishing pass emits, between the `extern(C)` braces, the
alias-line groups of the recorded commands in discovery order — each opening
with `alias PFN_<name> = <ret> function (`, a zero-parameter command closing
immediately after the empty parentheses, a one-parameter command on a single
unaligned line, a multi-parameter command one parameter per line aligned to
the opening line's column (as `specEndFileCmdLines` states) — and the number
of lines per command is 1 for at most one parameter, else the parameter
count. -/
theorem endFile_emits_one_alias_per_command :
    ∀ cmds : List Command,
      endFileCmdLines cmds = specEndFileCmdLines cmds
      ∧ cmds.map (fun c => (cmdAliasLines c).length)
          = cmds.map (fun c => max 1 c.params.length) := by
  intro cmds
  constructor
  · simp only [endFileCmdLines, specEndFileCmdLines, cmdAliasLines_eq_spec]
  · apply List.map_congr_left
    intro c _
    obtain ⟨ret, nm, ps⟩ := c
    cases ps with
    | nil => rfl
    | cons p tail =>
      cases tail with
      | nil => rfl
      | cons q rest =>
        show (multiLines _ _ _).length = _
        rw [multiLines_length _ (p :: q :: rest) _ (by simp)]
        simp only [List.length_cons]
        omega

/-- Claim C6: the emitted enumeration block contains exactly the schema's
members in schema order, every member name right-padded to the group's
longest member name, with the `VkFlags` storage annotation exactly when the
group name ends in `FlagBits`, followed by one `member = GroupName.member`
alias line per member; and every member name indeed fits the padding width. -/
theorem genGroup_emits_exact_members_aligned :
    ∀ (name : List Char) (members : List (List Char × List Char)),
      genGroupLines name members = specGroupLines name members
      ∧ ∀ mb, mb ∈ members → mb.1.length ≤ specGroupWidth members := by
  intro name members
  constructor
  · unfold genGroupLines specGroupLines padTo specGroupWidth
    rw [foldl_max_map (fun mb => mb.1.length) members 0]
    simp
  · intro mb hmb
    exact le_foldr_max_map (fun mb => mb.1.length) members mb hmb

/-- Witness for C6 at a two-member flag-bits group. -/
theorem genGroup_emits_exact_members_aligned_witness :
    genGroupLines (tl ("VkFooFlagBits")) [(tl ("VK_A"), tl ("1")), (tl ("VK_LONGER"), tl ("2"))]
      = specGroupLines (tl ("VkFooFlagBits")) [(tl ("VK_A"), tl ("1")), (tl ("VK_LONGER"), tl ("2"))]
    ∧ (tl ("VK_A")).length ≤ specGroupWidth [(tl ("VK_A"), tl ("1")), (tl ("VK_LONGER"), tl ("2"))] :=
  ⟨(genGroup_emits_exact_members_aligned (tl ("VkFooFlagBits"))
      [(tl ("VK_A"), tl ("1")), (tl ("VK_LONGER"), tl ("2"))]).1,
   (genGroup_emits_exact_members_aligned (tl ("VkFooFlagBits"))
      [(tl ("VK_A"), tl ("1")), (tl ("VK_LONGER"), tl ("2"))]).2
     (tl ("VK_A"), tl ("1")) (by decide)⟩

/-- Claim C5: the rewriter maps `const X*` to `const(X)*` (when the
double-indirection pattern, tried first, does not match) and
`const X* const*` to `const(X*)*`; an input matching neither pattern is
returned unchanged — the `const *` → `const*` whitespace collapse happens in
`makeDParamType` before the rewriter runs.  `X` is any token text starting
with a non-space character and containing no newline. -/
theorem convertDTypeConst_rewrites_const_patterns :
    (∀ (x : Char) (xs : List Char), isPySpace x = false → (x :: xs).contains ('\n') = false →
       matchDoubleConst (tl ("const ") ++ (x :: xs) ++ [('*')]) = none →
       convertDTypeConst (tl ("const ") ++ (x :: xs) ++ [('*')])
         = tl ("const(") ++ (x :: xs) ++ tl (")*"))
    ∧ (∀ (x : Char) (xs : List Char), isPySpace x = false → (x :: xs).contains ('\n') = false →
       convertDTypeConst (tl ("const ") ++ (x :: xs) ++ tl ("* const*"))
         = tl ("const(") ++ (x :: xs) ++ tl ("*)*"))
    ∧ (∀ s : List Char, matchDoubleConst s = none → matchSingleConst s = none →
       convertDTypeConst s = s) := by
  refine ⟨?_, ?_, ?_⟩
  · intro x xs hx hn hd
    unfold convertDTypeConst
    rw [hd, matchSingleConst_shape x xs hx hn]
  · intro x xs hx hn
    unfold convertDTypeConst
    rw [matchDoubleConst_shape x xs hx hn]
  · intro s hd hs
    unfold convertDTypeConst
    rw [hd, hs]

/-- Witness for C5: `const void*` becomes `const(void)*`, `const char* const*`
becomes `const(char*)*`, and `uint32_t` passes through unchanged. -/
theorem convertDTypeConst_rewrites_const_patterns_witness :
    convertDTypeConst (tl ("const ") ++ ('v' :: tl ("oid")) ++ [('*')])
      = tl ("const(") ++ ('v' :: tl ("oid")) ++ tl (")*")
    ∧ convertDTypeConst (tl ("const ") ++ ('c' :: tl ("har")) ++ tl ("* const*"))
      = tl ("const(") ++ ('c' :: tl ("har")) ++ tl ("*)*")
    ∧ convertDTypeConst (tl ("uint32_t")) = tl ("uint32_t") :=
  ⟨convertDTypeConst_rewrites_const_patterns.1 'v' (tl ("oid"))
     (by decide) (by decide) (by decide),
   convertDTypeConst_rewrites_const_patterns.2.1 'c' (tl ("har"))
     (by decide) (by decide),
   convertDTypeConst_rewrites_const_patterns.2.2 (tl ("uint32_t"))
     (by decide) (by decide)⟩

/-- Claim C7 counterexample: the value literal `1ULL` is emitted unchanged —
the 64-bit unsigned suffix is *not* rewritten when the digit before it is not
`0`, because the code replaces the literal substrings `0ULL` and `0U` only. -/
theorem genEnum_suffix_rewrite_counterexample :
    genEnumLine (tl ("VK_TEST")) (tl ("1ULL")) = tl ("enum VK_TEST = 1ULL;")
    ∧ genEnumLine (tl ("VK_TEST")) (tl ("1ULL")) ≠ tl ("enum VK_TEST = 1uL;") := by
  decide

/-- Claim C7 as amended: `genEnum` emits one `enum <name> = <value>;` line in
which occurrences of the literal substring `0ULL` are rewritten to `0uL` and
remaining occurrences of `0U` to `0u`; a value literal containing neither
substring — in particular one whose suffix follows a digit other than `0` —
is emitted unchanged. -/
theorem genEnum_literal_zero_suffix_rewrite :
    (∀ (name v : List Char),
       hasInfix v (tl ("0ULL")) = false → hasInfix v (tl ("0U")) = false →
       genEnumLine name v = tl ("enum ") ++ name ++ tl (" = ") ++ v ++ tl (";"))
    ∧ genEnumLine (tl ("VK_WHOLE_SIZE")) (tl ("(~0ULL)")) = tl ("enum VK_WHOLE_SIZE = (~0uL);")
    ∧ genEnumLine (tl ("VK_SUBPASS_EXTERNAL")) (tl ("(~0U)"))
        = tl ("enum VK_SUBPASS_EXTERNAL = (~0u);") := by
  refine ⟨?_, by decide, by decide⟩
  intro name v h1 h2
  unfold genEnumLine
  rw [pyReplace_not_found _ _ _ h1, pyReplace_not_found _ _ _ h2]

/-- Witness for the amended C7: the literal `1000.0f` contains neither
suffix substring and is emitted verbatim. -/
theorem genEnum_literal_zero_suffix_rewrite_witness :
    genEnumLine (tl ("VK_LOD_CLAMP_NONE")) (tl ("1000.0f"))
      = tl ("enum ") ++ tl ("VK_LOD_CLAMP_NONE") ++ tl (" = ") ++ tl ("1000.0f") ++ tl (";") :=
  genEnum_literal_zero_suffix_rewrite.1 (tl ("VK_LOD_CLAMP_NONE")) (tl ("1000.0f"))
    (by decide) (by decide)

end Vkd
